import Mathlib

/-!
Shallow embedding of the MathCosmos particle system.

Embedded source:
* `src/components/MathGenerators.ts` — the shape generator `generateParticles`,
  a pure function from a shape identifier and a particle count to a flat
  coordinate buffer of length `3 * count`;
* `src/components/Scene.tsx` — the morph driver: the per-frame loop that moves
  the live `current` buffer a fixed fraction (0.05) of the remaining distance
  toward `target`, skipping components already within 0.001 of their target;
* `src/types.ts` — the `ShapeType` string enumeration.

Modelling conventions:
* JavaScript numbers are idealized as real numbers in the generator and as
  rationals in the morph driver (the driver uses only field operations,
  absolute values and comparisons, so the rational model is exact and
  executable).
* `Math.random()` is an oracle stream `rng : ℕ → ℝ` of draws in `[0, 1)`
  together with the index of the next unread draw, threaded through the
  computation in call order, exactly as the global JavaScript generator is.
* The operations that can produce a non-finite number (NaN/Infinity) in
  JavaScript — `Math.acos` outside `[-1, 1]`, division with a vanishing
  denominator, indexing past the end of the corner array in the Sierpinski
  chaos game — are modelled in `Option`, returning `none` exactly when
  JavaScript would produce a non-finite value.  All remaining operations
  (trigonometric functions, `exp`, `sqrt` of a sum of squares, polynomial
  arithmetic) are total on the reals.
-/

namespace MathCosmos

/-- String value of `ShapeType.Sierpinski` in `src/types.ts`. -/
@[simp] def ShapeType.Sierpinski : String := "Sierpinski Triangle"

/-- String value of `ShapeType.Mobius` in `src/types.ts`. -/
@[simp] def ShapeType.Mobius : String := "Mobius Strip"

/-- String value of `ShapeType.Heart` in `src/types.ts`. -/
@[simp] def ShapeType.Heart : String := "Cartesian Heart"

/-- String value of `ShapeType.Penrose` in `src/types.ts`. -/
@[simp] def ShapeType.Penrose : String := "Penrose Structure"

/-- String value of `ShapeType.Lorenz` in `src/types.ts`. -/
@[simp] def ShapeType.Lorenz : String := "Lorenz Attractor"

/-- String value of `ShapeType.Galaxy` in `src/types.ts`. -/
@[simp] def ShapeType.Galaxy : String := "Spiral Galaxy"

/-- String value of `ShapeType.DNA` in `src/types.ts`. -/
@[simp] def ShapeType.DNA : String := "DNA Double Helix"

/-- String value of `ShapeType.Sphere` in `src/types.ts`. -/
@[simp] def ShapeType.Sphere : String := "Fibonacci Sphere"

/-- String value of `ShapeType.Klein` in `src/types.ts`. -/
@[simp] def ShapeType.Klein : String := "Klein Bottle"

/-- String value of `ShapeType.Trefoil` in `src/types.ts`. -/
@[simp] def ShapeType.Trefoil : String := "Trefoil Knot"

/-- String value of `ShapeType.Rossler` in `src/types.ts`. -/
@[simp] def ShapeType.Rossler : String := "Rossler Attractor"

/-- String value of `ShapeType.Clifford` in `src/types.ts`. -/
@[simp] def ShapeType.Clifford : String := "Clifford Torus"

/-- String value of `ShapeType.Hourglass` in `src/types.ts`. -/
@[simp] def ShapeType.Hourglass : String := "Spacetime Hourglass"

/-- String value of `ShapeType.Warp` in `src/types.ts`. -/
@[simp] def ShapeType.Warp : String := "Warp Tunnel"

/-- String value of `ShapeType.Quantum` in `src/types.ts`. -/
@[simp] def ShapeType.Quantum : String := "Quantum Cloud"

/-- String value of `ShapeType.Flower` in `src/types.ts`. -/
@[simp] def ShapeType.Flower : String := "Exotic Flower"

/-- String value of `ShapeType.BlackHole` in `src/types.ts`. -/
@[simp] def ShapeType.BlackHole : String := "Black Hole Accretion"

/-- String value of `ShapeType.Lissajous` in `src/types.ts`. -/
@[simp] def ShapeType.Lissajous : String := "Lissajous Curve"

/-- String value of `ShapeType.GravityWave` in `src/types.ts`. -/
@[simp] def ShapeType.GravityWave : String := "Gravity Wave"

/-- String value of `ShapeType.Hypercube` in `src/types.ts`. -/
@[simp] def ShapeType.Hypercube : String := "Hypercube Projection"

/-- The twenty string values of the `ShapeType` enumeration. -/
def knownShapes : List String :=
  [ShapeType.Sierpinski, ShapeType.Mobius, ShapeType.Heart, ShapeType.Penrose,
   ShapeType.Lorenz, ShapeType.Galaxy, ShapeType.DNA, ShapeType.Sphere,
   ShapeType.Klein, ShapeType.Trefoil, ShapeType.Rossler, ShapeType.Clifford,
   ShapeType.Hourglass, ShapeType.Warp, ShapeType.Quantum, ShapeType.Flower,
   ShapeType.BlackHole, ShapeType.Lissajous, ShapeType.GravityWave,
   ShapeType.Hypercube]

/-- The helper `random(min, max) = Math.random() * (max - min) + min` of
`MathGenerators.ts`, with the oracle draw made explicit: `rng p` is the value
`Math.random()` returns for the `p`-th call since the start of the run. -/
noncomputable def random (rng : ℕ → ℝ) (p : ℕ) (lo hi : ℝ) : ℝ :=
  rng p * (hi - lo) + lo

/-- Division as JavaScript computes it on finite operands: a finite result
unless the denominator is zero (in which case JavaScript yields NaN or
±Infinity, modelled as `none`). -/
noncomputable def divD (a b : ℝ) : Option ℝ :=
  if b = 0 then none else some (a / b)

/-- `Math.acos`: defined (finite) on `[-1, 1]`, NaN outside, modelled as
`none` outside. -/
noncomputable def acosD (a : ℝ) : Option ℝ :=
  if -1 ≤ a ∧ a ≤ 1 then some (Real.arccos a) else none

/-- `Math.cbrt` for the nonnegative arguments occurring in the source. -/
noncomputable def jsCbrt (x : ℝ) : ℝ := x ^ ((1 : ℝ) / 3)

/-- The JavaScript `%` operator on numbers, for the nonnegative operands
occurring in the source (where truncation and floor agree). -/
noncomputable def jsFmod (a b : ℝ) : ℝ := a - b * (⌊a / b⌋ : ℤ)

/-- One explicit-Euler step of the Lorenz system as coded in the `Lorenz`
branch: `σ = 10`, `ρ = 28`, `β = 8/3`, step size `0.003` (the declared
`dt = 0.005` is never used).  The three derivatives are computed from the
current state before any component is updated, as in the source. -/
noncomputable def lorenzStep (v : ℝ × ℝ × ℝ) : ℝ × ℝ × ℝ :=
  let sigma : ℝ := 10
  let rho : ℝ := 28
  let beta : ℝ := 8 / 3
  let dx := sigma * (v.2.1 - v.1)
  let dy := v.1 * (rho - v.2.2) - v.2.1
  let dz := v.1 * v.2.1 - beta * v.2.2
  (v.1 + dx * 0.003, v.2.1 + dy * 0.003, v.2.2 + dz * 0.003)

/-- One explicit-Euler step of the Rossler system as coded in the `Rossler`
branch: `a = 0.2`, `b = 0.2`, `c = 5.7`, step size `0.01`. -/
noncomputable def rosslerStep (v : ℝ × ℝ × ℝ) : ℝ × ℝ × ℝ :=
  let a : ℝ := 0.2
  let b : ℝ := 0.2
  let c : ℝ := 5.7
  let dx := -v.2.1 - v.2.2
  let dy := v.1 + a * v.2.1
  let dz := b + v.2.2 * (v.1 - c)
  (v.1 + dx * 0.01, v.2.1 + dy * 0.01, v.2.2 + dz * 0.01)

/-- `corners[Math.floor(r * 4)]` for the Sierpinski chaos game: the fixed
tetrahedron vertex selected by a draw `r`; `none` if the computed index falls
outside the 4-element array (JavaScript would read `undefined` and produce
NaN coordinates). -/
noncomputable def cornerAt (r : ℝ) : Option (ℝ × ℝ × ℝ) :=
  if ⌊r * 4⌋ = 0 then some (10, 10, 10)
  else if ⌊r * 4⌋ = 1 then some (-10, -10, 10)
  else if ⌊r * 4⌋ = 2 then some (-10, 10, -10)
  else if ⌊r * 4⌋ = 3 then some (10, -10, -10)
  else none

/-- `p.lerp(corner, 0.5)` on a `THREE.Vector3`: each component moves halfway
toward the corner. -/
noncomputable def lerpHalf (a c : ℝ × ℝ × ℝ) : ℝ × ℝ × ℝ :=
  (a.1 + (c.1 - a.1) * 0.5, a.2.1 + (c.2.1 - a.2.1) * 0.5,
   a.2.2 + (c.2.2 - a.2.2) * 0.5)

/-- The 5-step chaos-game loop of the `Sierpinski` branch: each step draws one
`Math.random()` value, selects a tetrahedron corner and moves halfway toward
it. -/
noncomputable def sierpIter (rng : ℕ → ℝ) : ℕ → ℝ × ℝ × ℝ → ℕ → Option ((ℝ × ℝ × ℝ) × ℕ)
  | 0, a, p => some (a, p)
  | s + 1, a, p =>
    match cornerAt (rng p) with
    | none => none
    | some c => sierpIter rng s (lerpHalf a c) (p + 1)

/-- The loop body of `generateParticles` for particle index `i`: the
per-shape `switch` of `MathGenerators.ts`, returning the point `(x, y, z)`
(or `none` where JavaScript would produce a non-finite coordinate) together
with the index of the next unread oracle draw. -/
noncomputable def genPoint (shape : String) (count : ℕ) (rng : ℕ → ℝ) (i p : ℕ) :
    Option (ℝ × ℝ × ℝ) × ℕ :=
  match divD (i : ℝ) (count : ℝ) with
  | none => (none, p)
  | some t =>
    if shape = ShapeType.Sphere then
      -- Fibonacci sphere
      match acosD (1 - 2 * t) with
      | none => (none, p)
      | some phi =>
        let theta := Real.pi * (1 + Real.sqrt 5) * (i : ℝ)
        let r : ℝ := 10
        (some (r * Real.sin phi * Real.cos theta,
               r * Real.sin phi * Real.sin theta,
               r * Real.cos phi), p)
    else if shape = ShapeType.Sierpinski then
      -- chaos game on a fixed tetrahedron, 5 steps from a random start
      let start : ℝ × ℝ × ℝ :=
        (random rng p (-10) 10, random rng (p + 1) (-10) 10,
         random rng (p + 2) (-10) 10)
      match sierpIter rng 5 start (p + 3) with
      | none => (none, p + 3)
      | some (q, pNext) => (some q, pNext)
    else if shape = ShapeType.Mobius then
      let u := t * Real.pi * 4
      let v := random rng p (-1) 1
      let r := 8 + v * Real.cos (u / 2)
      (some (r * Real.cos u, r * Real.sin u, v * Real.sin (u / 2) * 4), p + 1)
    else if shape = ShapeType.Heart then
      let phi := random rng p 0 (Real.pi * 2)
      let theta := random rng (p + 1) 0 Real.pi
      (some (10 * 16 * Real.sin theta ^ 3 * Real.cos phi * 0.1,
             10 * (13 * Real.cos theta - 5 * Real.cos (2 * theta)
                   - 2 * Real.cos (3 * theta) - Real.cos (4 * theta)) * 0.1,
             10 * 16 * Real.sin theta ^ 3 * Real.sin phi * 0.1), p + 2)
    else if shape = ShapeType.Lorenz then
      if i % 100 = 0 then
        -- Three start coordinates are drawn (`lx`, `ly`, `lz`) but never read
        -- again; the output coordinates keep their initial value 0.
        (some (0, 0, 0), p + 3)
      else
        -- The parametric placeholder assignments in this branch are dead:
        -- `x` and `y` are overwritten by the Euler integration below, which
        -- runs `50 + (i % 2000)` steps from the fixed start `(1, 1, 1)`.
        let l := lorenzStep^[50 + i % 2000] (1, 1, 1)
        (some (l.1, l.2.1, l.2.2 - 25), p)
    else if shape = ShapeType.Galaxy then
      let arms : ℕ := 5
      let armAngle := ((i % arms : ℕ) : ℝ) * (2 * Real.pi / (arms : ℝ))
      let dist := random rng p 0 15
      let angle := dist * 0.5 + armAngle
      let randomness := random rng (p + 1) (-1) 1
      (some (Real.cos angle * dist + randomness,
             Real.sin angle * dist + randomness,
             random rng (p + 2) (-1) 1 * dist * 0.2), p + 3)
    else if shape = ShapeType.DNA then
      let turns : ℝ := 10
      let angle := t * Real.pi * 2 * turns
      let radius : ℝ := 5
      let height : ℝ := 30
      let strand : ℝ := if i % 2 = 0 then 1 else -1
      let x := Real.cos (angle + strand * Real.pi) * radius
      let z := Real.sin (angle + strand * Real.pi) * radius
      let y := (t - 0.5) * height
      if i % 10 = 0 then
        let r := random rng p (-radius) radius
        (some (Real.cos angle * r, y, Real.sin angle * r), p + 1)
      else
        (some (x, y, z), p)
    else if shape = ShapeType.Klein then
      let u := t * Real.pi * 2
      let v := ((i % 100 : ℕ) : ℝ) / 100 * Real.pi * 2
      let r := 4 * (1 - Real.cos u / 2)
      let xy : ℝ × ℝ :=
        if u < Real.pi then
          (6 * Real.cos u * (1 + Real.sin u) + r * Real.cos u * Real.cos v,
           16 * Real.sin u + r * Real.sin u * Real.cos v)
        else
          (6 * Real.cos u * (1 + Real.sin u) + r * Real.cos (v + Real.pi),
           16 * Real.sin u)
      (some (xy.1 * 0.3, xy.2 * 0.3, r * Real.sin v * 0.3), p)
    else if shape = ShapeType.Trefoil then
      -- The secondary parameter `v` and radius `R` of this branch are dead;
      -- the tube thickness comes from three random draws.
      let u := t * Real.pi * 4
      let kx := Real.sin u + 2 * Real.sin (2 * u)
      let ky := Real.cos u - 2 * Real.cos (2 * u)
      let kz := -Real.sin (3 * u)
      (some (kx * 4 + random rng p (-0.5) 0.5,
             ky * 4 + random rng (p + 1) (-0.5) 0.5,
             kz * 4 + random rng (p + 2) (-0.5) 0.5), p + 3)
    else if shape = ShapeType.Rossler then
      let l := rosslerStep^[100 + i % 3000] (1, 1, 1)
      (some (l.1, l.2.1, l.2.2 - 10), p)
    else if shape = ShapeType.Clifford then
      let u := t * Real.pi * 2
      let v := ((i % 200 : ℕ) : ℝ) / 200 * Real.pi * 2
      let bigR : ℝ := 8
      let r : ℝ := 3
      (some ((bigR + r * Real.cos v) * Real.cos u,
             (bigR + r * Real.cos v) * Real.sin u,
             r * Real.sin v), p)
    else if shape = ShapeType.Hourglass then
      let u := t * Real.pi * 4
      let h := ((i % 100 : ℕ) : ℝ) / 100 * 2 - 1
      let r := h ^ 2 * 10 + 1
      (some (r * Real.cos u, h * 15, r * Real.sin u), p)
    else if shape = ShapeType.Warp then
      let depth := jsFmod (t * 50) 50
      let angle := (i : ℝ) * 0.5
      let r := 5 + Real.sin (depth * 0.5) * 2
      (some (Real.cos angle * r, Real.sin angle * r, 25 - depth), p)
    else if shape = ShapeType.Quantum then
      let u := random rng p 0 1
      let v := random rng (p + 1) 0 1
      let theta := 2 * Real.pi * u
      match acosD (2 * v - 1) with
      | none => (none, p + 3)
      | some phi =>
        let r := jsCbrt (random rng (p + 2) 0 1) * 10
        let orbital := |Real.cos theta * Real.sin phi| * 5
        (some ((r + orbital) * Real.sin phi * Real.cos theta,
               (r + orbital) * Real.sin phi * Real.sin theta,
               (r + orbital) * Real.cos phi), p + 3)
    else if shape = ShapeType.Flower then
      let u := t * Real.pi * 20
      let v := ((i % 50 : ℕ) : ℝ) / 50
      let r := 5 + Real.cos (u * 5) * 5
      (some (r * Real.cos u * v * 2, Real.sin (u * 5) * 5 * (1 - v),
             r * Real.sin u * v * 2), p)
    else if shape = ShapeType.BlackHole then
      let dist := 3 + random rng p 0 15
      match divD 10 dist with
      | none => (none, p + 2)
      | some q =>
        let angle := t * Real.pi * 20 + q
        match divD (random rng (p + 1) (-1) 1 * 0.5) (dist * 0.5) with
        | none => (none, p + 2)
        | some y0 =>
          let y := if dist < 4 then y0 * 2 else y0
          (some (Real.cos angle * dist, y, Real.sin angle * dist), p + 2)
    else if shape = ShapeType.Lissajous then
      let bigA : ℝ := 10
      let bigB : ℝ := 10
      let bigC : ℝ := 10
      let a : ℝ := 3
      let b : ℝ := 2
      let c : ℝ := 4
      let delta := Real.pi / 2
      let angle := t * Real.pi * 20
      (some (bigA * Real.sin (a * angle + delta),
             bigB * Real.sin (b * angle),
             bigC * Real.sin (c * angle)), p)
    else if shape = ShapeType.GravityWave then
      let size : ℝ := 30
      let x := random rng p (-size) size
      let z := random rng (p + 1) (-size) size
      let d := Real.sqrt (x * x + z * z)
      (some (x, Real.sin (d * 0.5 - t * 0) * 5 * Real.exp (-d * 0.05), z), p + 2)
    else if shape = ShapeType.Hypercube then
      let size : ℝ := 10
      let c1 := random rng p (-1) 1
      let c2 := random rng (p + 1) (-1) 1
      let c3 := random rng (p + 2) (-1) 1
      let inner := (i : ℝ) < (count : ℝ) / 2
      let x0 := if inner then (if 0 < c1 then size / 2 else -(size / 2))
                else (if 0 < c1 then size else -size)
      let y0 := if inner then (if 0 < c2 then size / 2 else -(size / 2))
                else (if 0 < c2 then size else -size)
      let z0 := if inner then (if 0 < c3 then size / 2 else -(size / 2))
                else (if 0 < c3 then size else -size)
      if 0.8 < rng (p + 3) then
        (some (random rng (p + 4) (-size) size, y0, z0), p + 5)
      else
        (some (x0, y0, z0), p + 4)
    else if shape = ShapeType.Penrose then
      let part := i % 3
      let pos := random rng p (-10) 10
      let xyz : ℝ × ℝ × ℝ :=
        if part = 0 then
          ((if 10 < |pos| then 0 else pos), -10, 0)
        else if part = 1 then
          (10 - (pos + 10) / 2, -10 + (pos + 10) * Real.sqrt 3 / 2, (pos + 10) / 2)
        else
          (-10 + (pos + 10) / 2, -10 + (pos + 10) * Real.sqrt 3 / 2,
           -((pos + 10) / 2))
      (some (xyz.1 * 0.8, xyz.2.1 * 0.8, xyz.2.2 * 0.8), p + 1)
    else
      -- default case: uniform random cube fill
      (some (random rng p (-10) 10, random rng (p + 1) (-10) 10,
             random rng (p + 2) (-10) 10), p + 3)

/-- The generator loop over the given particle indices, appending the three
coordinates of each particle to the flat buffer and threading the oracle
position, as the `for` loop of `generateParticles` does with the global
random stream. -/
noncomputable def genAux (shape : String) (count : ℕ) (rng : ℕ → ℝ) :
    List ℕ → ℕ → Option (List ℝ)
  | [], _ => some []
  | i :: rest, p =>
    match genPoint shape count rng i p with
    | (none, _) => none
    | (some (x, y, z), pNext) =>
      match genAux shape count rng rest pNext with
      | none => none
      | some tail => some (x :: y :: z :: tail)

/-- `generateParticles(shape, count)` of `MathGenerators.ts`: the flat
position buffer of length `3 * count` (or `none` if some coordinate would be
non-finite), for the oracle stream `rng` starting at draw 0. -/
noncomputable def generateParticles (shape : String) (count : ℕ) (rng : ℕ → ℝ) :
    Option (List ℝ) :=
  genAux shape count rng (List.range count) 0

/-- Value of the `Sphere` branch as a function of `count` and `i` alone: the
branch draws no random values and leaves the oracle position unchanged. -/
noncomputable def sphereVal (count i : ℕ) : Option (ℝ × ℝ × ℝ) :=
  (divD (i : ℝ) (count : ℝ)).bind fun t =>
    (acosD (1 - 2 * t)).map fun phi =>
      (10 * Real.sin phi * Real.cos (Real.pi * (1 + Real.sqrt 5) * (i : ℝ)),
       10 * Real.sin phi * Real.sin (Real.pi * (1 + Real.sqrt 5) * (i : ℝ)),
       10 * Real.cos phi)

/-- Value of the `Klein` branch as a function of `count` and `i` alone. -/
noncomputable def kleinVal (count i : ℕ) : Option (ℝ × ℝ × ℝ) :=
  (divD (i : ℝ) (count : ℝ)).bind fun t =>
    let u := t * Real.pi * 2
    let v := ((i % 100 : ℕ) : ℝ) / 100 * Real.pi * 2
    let r := 4 * (1 - Real.cos u / 2)
    let xy : ℝ × ℝ :=
      if u < Real.pi then
        (6 * Real.cos u * (1 + Real.sin u) + r * Real.cos u * Real.cos v,
         16 * Real.sin u + r * Real.sin u * Real.cos v)
      else
        (6 * Real.cos u * (1 + Real.sin u) + r * Real.cos (v + Real.pi),
         16 * Real.sin u)
    some (xy.1 * 0.3, xy.2 * 0.3, r * Real.sin v * 0.3)

/-- Value of the `Clifford` branch as a function of `count` and `i` alone. -/
noncomputable def cliffordVal (count i : ℕ) : Option (ℝ × ℝ × ℝ) :=
  (divD (i : ℝ) (count : ℝ)).bind fun t =>
    let u := t * Real.pi * 2
    let v := ((i % 200 : ℕ) : ℝ) / 200 * Real.pi * 2
    let bigR : ℝ := 8
    let r : ℝ := 3
    some ((bigR + r * Real.cos v) * Real.cos u,
          (bigR + r * Real.cos v) * Real.sin u,
          r * Real.sin v)

/-- Value of the `Lissajous` branch as a function of `count` and `i` alone. -/
noncomputable def lissajousVal (count i : ℕ) : Option (ℝ × ℝ × ℝ) :=
  (divD (i : ℝ) (count : ℝ)).bind fun t =>
    let bigA : ℝ := 10
    let bigB : ℝ := 10
    let bigC : ℝ := 10
    let a : ℝ := 3
    let b : ℝ := 2
    let c : ℝ := 4
    let delta := Real.pi / 2
    let angle := t * Real.pi * 20
    some (bigA * Real.sin (a * angle + delta),
          bigB * Real.sin (b * angle),
          bigC * Real.sin (c * angle))

/-- Value of the `Lorenz` branch as a function of `count` and `i` alone: the
origin when `i % 100 = 0`, and otherwise the Euler trajectory started at
`(1, 1, 1)` run for `50 + (i % 2000)` steps, shifted down by 25 in `z`. -/
noncomputable def lorenzVal (count i : ℕ) : Option (ℝ × ℝ × ℝ) :=
  (divD (i : ℝ) (count : ℝ)).bind fun _ =>
    if i % 100 = 0 then some (0, 0, 0)
    else
      let l := lorenzStep^[50 + i % 2000] (1, 1, 1)
      some (l.1, l.2.1, l.2.2 - 25)

/-- Value of the `Rossler` branch as a function of `count` and `i` alone: the
Euler trajectory started at `(1, 1, 1)` run for `100 + (i % 3000)` steps,
shifted down by 10 in `z`. -/
noncomputable def rosslerVal (count i : ℕ) : Option (ℝ × ℝ × ℝ) :=
  (divD (i : ℝ) (count : ℝ)).bind fun _ =>
    let l := rosslerStep^[100 + i % 3000] (1, 1, 1)
    some (l.1, l.2.1, l.2.2 - 10)

/-- The flat buffer built from a per-index point function: the abstract shape
of the generator loop for branches whose point values do not depend on the
random stream. -/
noncomputable def flatTriples (val : ℕ → Option (ℝ × ℝ × ℝ)) : List ℕ → Option (List ℝ)
  | [] => some []
  | i :: rest =>
    match val i with
    | none => none
    | some (x, y, z) =>
      match flatTriples val rest with
      | none => none
      | some tail => some (x :: y :: z :: tail)

/-!
The morph driver (`Scene.tsx`, the `useFrame` callback).  Each animation tick
walks every component of the live position buffer and, when the component is
farther than 0.001 from its target, moves it 5% of the remaining distance;
the target buffer is only read.  Selecting a new shape replaces the target
buffer wholesale and leaves the current buffer untouched (the `useEffect` on
`currentShape` only calls `setTargetPositions`).  All arithmetic here is
field arithmetic with comparisons, so the model uses rationals and is exact
and executable.
-/

/-- `lerpFactor = 0.05`, the transition speed of the morph loop. -/
def lerpFactor : ℚ := 0.05

/-- The convergence threshold `0.001` of the morph loop. -/
def morphEps : ℚ := 0.001

/-- One component of one morph tick: `diff = target - current`; if
`|diff| > 0.001` the component moves by `diff * 0.05`, otherwise it is left
exactly as it is. -/
def morphStep (c t : ℚ) : ℚ :=
  if morphEps < |t - c| then c + (t - c) * lerpFactor else c

/-- One morph tick over whole buffers (the `for` loop of the `useFrame`
callback). -/
def morphTick (cur tgt : List ℚ) : List ℚ :=
  List.zipWith morphStep cur tgt

/-- The state of `n` consecutive morph ticks toward a fixed target. -/
def morphIter (tgt cur : List ℚ) : ℕ → List ℚ
  | 0 => cur
  | n + 1 => morphTick (morphIter tgt cur n) tgt

/-- Sum over all components of the absolute difference to the target. -/
def totalDist (cur tgt : List ℚ) : ℚ :=
  (List.zipWith (fun c t => |t - c|) cur tgt).sum

/-- The mutable state held by the `Particles` component: the live `positions`
buffer and the `targetPositions` buffer. -/
structure MorphState where
  current : List ℚ
  target : List ℚ

/-- Shape selection (the `useEffect` on `currentShape`): the target buffer is
replaced wholesale; the current buffer is not touched. -/
def retarget (s : MorphState) (newTarget : List ℚ) : MorphState :=
  ⟨s.current, newTarget⟩

/-- One `useFrame` tick on the component state. -/
def tickState (s : MorphState) : MorphState :=
  ⟨morphTick s.current s.target, s.target⟩

/-! ### Basic facts about the checked operations and the oracle -/

theorem divD_of_ne (a b : ℝ) (hb : b ≠ 0) : divD a b = some (a / b) := by
  simp [divD, hb]

theorem acosD_of_mem (a : ℝ) (h1 : -1 ≤ a) (h2 : a ≤ 1) :
    acosD a = some (Real.arccos a) := by
  simp [acosD, h1, h2]

theorem random_mem (rng : ℕ → ℝ) (p : ℕ) (lo hi : ℝ)
    (hr : 0 ≤ rng p ∧ rng p < 1) (hlt : lo < hi) :
    lo ≤ random rng p lo hi ∧ random rng p lo hi < hi := by
  unfold random
  constructor
  · nlinarith [hr.1, hr.2]
  · nlinarith [hr.1, hr.2]

/-! ### Evaluation of `genPoint` on the branches the claims are about -/

theorem genPoint_sphere_eq (count : ℕ) (rng : ℕ → ℝ) (i p : ℕ) :
    genPoint ShapeType.Sphere count rng i p = (sphereVal count i, p) := by
  unfold genPoint sphereVal
  cases hd : divD (i : ℝ) (count : ℝ) with
  | none => simp
  | some t =>
    simp only [Option.bind_some]
    cases ha : acosD (1 - 2 * t) <;> simp [ha]

theorem genPoint_klein_eq (count : ℕ) (rng : ℕ → ℝ) (i p : ℕ) :
    genPoint ShapeType.Klein count rng i p = (kleinVal count i, p) := by
  unfold genPoint kleinVal
  cases hd : divD (i : ℝ) (count : ℝ) with
  | none => simp
  | some t => simp

theorem genPoint_clifford_eq (count : ℕ) (rng : ℕ → ℝ) (i p : ℕ) :
    genPoint ShapeType.Clifford count rng i p = (cliffordVal count i, p) := by
  unfold genPoint cliffordVal
  cases hd : divD (i : ℝ) (count : ℝ) with
  | none => simp
  | some t => simp

theorem genPoint_lissajous_eq (count : ℕ) (rng : ℕ → ℝ) (i p : ℕ) :
    genPoint ShapeType.Lissajous count rng i p = (lissajousVal count i, p) := by
  unfold genPoint lissajousVal
  cases hd : divD (i : ℝ) (count : ℝ) with
  | none => simp
  | some t => simp

theorem genPoint_lorenz_eq (count : ℕ) (rng : ℕ → ℝ) (i p : ℕ) (hc : count ≠ 0) :
    genPoint ShapeType.Lorenz count rng i p =
      (lorenzVal count i, if i % 100 = 0 then p + 3 else p) := by
  have hb : ((count : ℕ) : ℝ) ≠ 0 := by exact_mod_cast hc
  unfold genPoint lorenzVal
  rw [divD_of_ne _ _ hb]
  by_cases h : i % 100 = 0 <;> simp [h]

theorem genPoint_rossler_eq (count : ℕ) (rng : ℕ → ℝ) (i p : ℕ) :
    genPoint ShapeType.Rossler count rng i p = (rosslerVal count i, p) := by
  unfold genPoint rosslerVal
  cases hd : divD (i : ℝ) (count : ℝ) with
  | none => simp
  | some t => simp

theorem genPoint_default_eq (shape : String) (count : ℕ) (rng : ℕ → ℝ) (i p : ℕ)
    (hc : count ≠ 0) (hshape : shape ∉ knownShapes) :
    genPoint shape count rng i p =
      (some (random rng p (-10) 10, random rng (p + 1) (-10) 10,
             random rng (p + 2) (-10) 10), p + 3) := by
  simp only [knownShapes, ShapeType.Sierpinski, ShapeType.Mobius, ShapeType.Heart,
    ShapeType.Penrose, ShapeType.Lorenz, ShapeType.Galaxy, ShapeType.DNA,
    ShapeType.Sphere, ShapeType.Klein, ShapeType.Trefoil, ShapeType.Rossler,
    ShapeType.Clifford, ShapeType.Hourglass, ShapeType.Warp, ShapeType.Quantum,
    ShapeType.Flower, ShapeType.BlackHole, ShapeType.Lissajous,
    ShapeType.GravityWave, ShapeType.Hypercube, List.mem_cons,
    List.not_mem_nil, or_false, not_or] at hshape
  obtain ⟨n1, n2, n3, n4, n5, n6, n7, n8, n9, n10, n11, n12, n13, n14, n15, n16,
    n17, n18, n19, n20⟩ := hshape
  have hb : ((count : ℕ) : ℝ) ≠ 0 := by exact_mod_cast hc
  unfold genPoint
  rw [divD_of_ne _ _ hb]
  simp [n1, n2, n3, n4, n5, n6, n7, n8, n9, n10, n11, n12, n13, n14, n15, n16,
    n17, n18, n19, n20]

/-! ### The generator loop -/

theorem genAux_eq_flatTriples (shape : String) (count : ℕ) (rng : ℕ → ℝ)
    (val : ℕ → Option (ℝ × ℝ × ℝ))
    (hval : ∀ i p, ∃ pNext, genPoint shape count rng i p = (val i, pNext)) :
    ∀ (l : List ℕ) (p : ℕ), genAux shape count rng l p = flatTriples val l := by
  intro l
  induction l with
  | nil => intro p; rfl
  | cons i rest ih =>
    intro p
    obtain ⟨pn, hp⟩ := hval i p
    cases hv : val i with
    | none =>
      rw [hv] at hp
      simp [genAux, flatTriples, hp, hv]
    | some xyz =>
      obtain ⟨x, y, z⟩ := xyz
      rw [hv] at hp
      simp only [genAux, flatTriples, hp, hv, ih pn]

theorem flatTriples_some (val : ℕ → Option (ℝ × ℝ × ℝ)) :
    ∀ l : List ℕ, (∀ i ∈ l, ∃ q, val i = some q) →
      ∃ buf, flatTriples val l = some buf ∧ buf.length = 3 * l.length := by
  intro l
  induction l with
  | nil => intro _; exact ⟨[], rfl, rfl⟩
  | cons i rest ih =>
    intro h
    obtain ⟨⟨x, y, z⟩, hq⟩ := h i (List.mem_cons_self i rest)
    obtain ⟨tail, htail, hlen⟩ := ih (fun j hj => h j (List.mem_cons_of_mem i hj))
    refine ⟨x :: y :: z :: tail, ?_, ?_⟩
    · simp [flatTriples, hq, htail]
    · simp only [List.length_cons, hlen]
      ring

theorem flatTriples_getD (val : ℕ → Option (ℝ × ℝ × ℝ)) :
    ∀ (l : List ℕ) (buf : List ℝ), flatTriples val l = some buf →
      ∀ j, j < l.length →
        ∃ x y z, val (l.getD j 0) = some (x, y, z) ∧
          buf.getD (3 * j) 0 = x ∧ buf.getD (3 * j + 1) 0 = y ∧
          buf.getD (3 * j + 2) 0 = z := by
  intro l
  induction l with
  | nil => intro buf _ j hj; exact absurd hj (by simp)
  | cons i rest ih =>
    intro buf hbuf j hj
    rw [show flatTriples val (i :: rest) =
          match val i with
          | none => none
          | some (x, y, z) =>
            match flatTriples val rest with
            | none => none
            | some tail => some (x :: y :: z :: tail) from rfl] at hbuf
    cases hv : val i with
    | none => rw [hv] at hbuf; exact absurd hbuf (by simp)
    | some xyz =>
      obtain ⟨x, y, z⟩ := xyz
      rw [hv] at hbuf
      cases ht : flatTriples val rest with
      | none => rw [ht] at hbuf; exact absurd hbuf (by simp)
      | some tail =>
        rw [ht] at hbuf
        simp only [Option.some.injEq] at hbuf
        subst hbuf
        cases j with
        | zero => exact ⟨x, y, z, by simpa using hv, rfl, rfl, rfl⟩
        | succ j =>
          obtain ⟨a, b, c, hval', h0, h1, h2⟩ :=
            ih tail ht j (by simpa using Nat.lt_of_succ_lt_succ hj)
          refine ⟨a, b, c, by simpa using hval', ?_, ?_, ?_⟩
          · have e : 3 * (j + 1) = 3 * j + 1 + 1 + 1 := by ring
            rw [e, List.getD_cons_succ, List.getD_cons_succ, List.getD_cons_succ]
            exact h0
          · have e : 3 * (j + 1) + 1 = 3 * j + 1 + 1 + 1 + 1 := by ring
            rw [e, List.getD_cons_succ, List.getD_cons_succ, List.getD_cons_succ]
            exact h1
          · have e : 3 * (j + 1) + 2 = 3 * j + 2 + 1 + 1 + 1 := by ring
            rw [e, List.getD_cons_succ, List.getD_cons_succ, List.getD_cons_succ]
            exact h2

theorem range_getD (count j : ℕ) (hj : j < count) :
    (List.range count).getD j 0 = j := by
  rw [List.getD_eq_getElem _ _ (by simpa using hj)]
  simp

/-! ### Totality: no branch produces a non-finite coordinate -/

theorem sierpIter_total (rng : ℕ → ℝ) (hr : ∀ n, 0 ≤ rng n ∧ rng n < 1) :
    ∀ (fuel : ℕ) (a : ℝ × ℝ × ℝ) (p : ℕ),
      ∃ q pNext, sierpIter rng fuel a p = some (q, pNext) := by
  intro fuel
  induction fuel with
  | zero => intro a p; exact ⟨a, p, rfl⟩
  | succ s ih =>
    intro a p
    have h0 : (0 : ℝ) ≤ rng p * 4 := by nlinarith [(hr p).1]
    have h4 : rng p * 4 < 4 := by nlinarith [(hr p).2]
    have hf0 : (0 : ℤ) ≤ ⌊rng p * 4⌋ := Int.floor_nonneg.mpr h0
    have hf4 : ⌊rng p * 4⌋ < 4 := Int.floor_lt.mpr (by exact_mod_cast h4)
    have hcase : ⌊rng p * 4⌋ = 0 ∨ ⌊rng p * 4⌋ = 1 ∨ ⌊rng p * 4⌋ = 2 ∨
        ⌊rng p * 4⌋ = 3 := by omega
    rcases hcase with h | h | h | h
    · obtain ⟨q, pn, hq⟩ := ih (lerpHalf a (10, 10, 10)) (p + 1)
      exact ⟨q, pn, by simp [sierpIter, cornerAt, h, hq]⟩
    · obtain ⟨q, pn, hq⟩ := ih (lerpHalf a (-10, -10, 10)) (p + 1)
      exact ⟨q, pn, by simp [sierpIter, cornerAt, h, hq]⟩
    · obtain ⟨q, pn, hq⟩ := ih (lerpHalf a (-10, 10, -10)) (p + 1)
      exact ⟨q, pn, by simp [sierpIter, cornerAt, h, hq]⟩
    · obtain ⟨q, pn, hq⟩ := ih (lerpHalf a (10, -10, -10)) (p + 1)
      exact ⟨q, pn, by simp [sierpIter, cornerAt, h, hq]⟩

theorem genPoint_total (shape : String) (count : ℕ) (rng : ℕ → ℝ) (i p : ℕ)
    (hi : i < count) (hr : ∀ n, 0 ≤ rng n ∧ rng n < 1) :
    ∃ v pNext, genPoint shape count rng i p = (some v, pNext) := by
  have hb : ((count : ℕ) : ℝ) ≠ 0 := by
    have : count ≠ 0 := by omega
    exact_mod_cast this
  have hcpos : (0 : ℝ) < (count : ℝ) := by
    have : 0 < count := by omega
    exact_mod_cast this
  have ht0 : (0 : ℝ) ≤ (i : ℝ) / (count : ℝ) := by positivity
  have ht1 : (i : ℝ) / (count : ℝ) ≤ 1 := by
    rw [div_le_one hcpos]
    exact_mod_cast Nat.le_of_lt hi
  by_cases h1 : shape = ShapeType.Sphere
  · subst h1
    have ha : acosD (1 - 2 * ((i : ℝ) / (count : ℝ))) =
        some (Real.arccos (1 - 2 * ((i : ℝ) / (count : ℝ)))) :=
      acosD_of_mem _ (by linarith) (by linarith)
    unfold genPoint
    rw [divD_of_ne _ _ hb]
    simp [ha]
  by_cases h2 : shape = ShapeType.Sierpinski
  · subst h2
    obtain ⟨q, pn, hq⟩ := sierpIter_total rng hr 5
      (random rng p (-10) 10, random rng (p + 1) (-10) 10,
       random rng (p + 2) (-10) 10) (p + 3)
    unfold genPoint
    rw [divD_of_ne _ _ hb]
    simp [hq]
  by_cases h3 : shape = ShapeType.Mobius
  · subst h3
    unfold genPoint
    rw [divD_of_ne _ _ hb]
    simp
  by_cases h4 : shape = ShapeType.Heart
  · subst h4
    unfold genPoint
    rw [divD_of_ne _ _ hb]
    simp
  by_cases h5 : shape = ShapeType.Lorenz
  · subst h5
    by_cases hmod : i % 100 = 0 <;>
    · unfold genPoint
      rw [divD_of_ne _ _ hb]
      simp [hmod]
  by_cases h6 : shape = ShapeType.Galaxy
  · subst h6
    unfold genPoint
    rw [divD_of_ne _ _ hb]
    simp
  by_cases h7 : shape = ShapeType.DNA
  · subst h7
    by_cases hmod : i % 10 = 0 <;>
    · unfold genPoint
      rw [divD_of_ne _ _ hb]
      simp [hmod]
  by_cases h8 : shape = ShapeType.Klein
  · subst h8
    unfold genPoint
    rw [divD_of_ne _ _ hb]
    simp
  by_cases h9 : shape = ShapeType.Trefoil
  · subst h9
    unfold genPoint
    rw [divD_of_ne _ _ hb]
    simp
  by_cases h10 : shape = ShapeType.Rossler
  · subst h10
    unfold genPoint
    rw [divD_of_ne _ _ hb]
    simp
  by_cases h11 : shape = ShapeType.Clifford
  · subst h11
    unfold genPoint
    rw [divD_of_ne _ _ hb]
    simp
  by_cases h12 : shape = ShapeType.Hourglass
  · subst h12
    unfold genPoint
    rw [divD_of_ne _ _ hb]
    simp
  by_cases h13 : shape = ShapeType.Warp
  · subst h13
    unfold genPoint
    rw [divD_of_ne _ _ hb]
    simp
  by_cases h14 : shape = ShapeType.Quantum
  · subst h14
    have hv := random_mem rng (p + 1) 0 1 (hr (p + 1)) (by norm_num)
    have ha : acosD (2 * random rng (p + 1) 0 1 - 1) =
        some (Real.arccos (2 * random rng (p + 1) 0 1 - 1)) :=
      acosD_of_mem _ (by nlinarith [hv.1]) (by nlinarith [hv.2])
    unfold genPoint
    rw [divD_of_ne _ _ hb]
    simp [ha]
  by_cases h15 : shape = ShapeType.Flower
  · subst h15
    unfold genPoint
    rw [divD_of_ne _ _ hb]
    simp
  by_cases h16 : shape = ShapeType.BlackHole
  · subst h16
    have hd := random_mem rng p 0 15 (hr p) (by norm_num)
    have hne : (3 + random rng p 0 15) ≠ 0 := by nlinarith [hd.1]
    have hne2 : (3 + random rng p 0 15) * (0.5 : ℝ) ≠ 0 := by
      intro hcontra
      have : (3 + random rng p 0 15) = 0 := by nlinarith
      exact hne this
    unfold genPoint
    rw [divD_of_ne _ _ hb]
    simp [divD_of_ne _ _ hne, divD_of_ne _ _ hne2]
  by_cases h17 : shape = ShapeType.Lissajous
  · subst h17
    unfold genPoint
    rw [divD_of_ne _ _ hb]
    simp
  by_cases h18 : shape = ShapeType.GravityWave
  · subst h18
    unfold genPoint
    rw [divD_of_ne _ _ hb]
    simp
  by_cases h19 : shape = ShapeType.Hypercube
  · subst h19
    by_cases hdraw : (0.8 : ℝ) < rng (p + 3) <;>
    · unfold genPoint
      rw [divD_of_ne _ _ hb]
      simp [hdraw]
  by_cases h20 : shape = ShapeType.Penrose
  · subst h20
    unfold genPoint
    rw [divD_of_ne _ _ hb]
    simp
  · simp only [ShapeType.Sierpinski, ShapeType.Mobius, ShapeType.Heart,
      ShapeType.Penrose, ShapeType.Lorenz, ShapeType.Galaxy, ShapeType.DNA,
      ShapeType.Sphere, ShapeType.Klein, ShapeType.Trefoil, ShapeType.Rossler,
      ShapeType.Clifford, ShapeType.Hourglass, ShapeType.Warp,
      ShapeType.Quantum, ShapeType.Flower, ShapeType.BlackHole,
      ShapeType.Lissajous, ShapeType.GravityWave, ShapeType.Hypercube]
      at h1 h2 h3 h4 h5 h6 h7 h8 h9 h10 h11 h12 h13 h14 h15 h16 h17 h18 h19 h20
    unfold genPoint
    rw [divD_of_ne _ _ hb]
    simp [h1, h2, h3, h4, h5, h6, h7, h8, h9, h10, h11, h12, h13, h14, h15,
      h16, h17, h18, h19, h20]

theorem genAux_total (shape : String) (count : ℕ) (rng : ℕ → ℝ)
    (hr : ∀ n, 0 ≤ rng n ∧ rng n < 1) :
    ∀ l : List ℕ, (∀ i ∈ l, i < count) → ∀ p,
      ∃ buf, genAux shape count rng l p = some buf ∧
        buf.length = 3 * l.length := by
  intro l
  induction l with
  | nil => intro _ p; exact ⟨[], rfl, rfl⟩
  | cons i rest ih =>
    intro hl p
    obtain ⟨⟨x, y, z⟩, pn, hv⟩ :=
      genPoint_total shape count rng i p (hl i (List.mem_cons_self i rest)) hr
    obtain ⟨tail, htail, hlen⟩ :=
      ih (fun j hj => hl j (List.mem_cons_of_mem i hj)) pn
    refine ⟨x :: y :: z :: tail, ?_, ?_⟩
    · simp [genAux, hv, htail]
    · simp only [List.length_cons, hlen]
      ring

/-! ### Claim C1 -/

/-- C1: for every shape identifier and every `count > 0`, `generateParticles`
returns a flat buffer of length exactly `3 * count` in which every entry is a
finite number — i.e. the generation succeeds (no checked operation leaves its
domain, so no NaN or Infinity arises) and the buffer has the stated length. -/
theorem buffer_length_and_finiteness (shape : String) (count : ℕ) (rng : ℕ → ℝ)
    (hcount : 0 < count) (hr : ∀ n, 0 ≤ rng n ∧ rng n < 1) :
    ∃ buf, generateParticles shape count rng = some buf ∧
      buf.length = 3 * count := by
  obtain ⟨buf, h1, h2⟩ := genAux_total shape count rng hr (List.range count)
    (fun i hi => List.mem_range.mp hi) 0
  exact ⟨buf, h1, by simpa using h2⟩

/-- Witness for C1 at `shape = Sphere`, `count = 1` and the constant-zero
oracle. -/
theorem buffer_length_and_finiteness_witness :
    ∃ buf, generateParticles ShapeType.Sphere 1 (fun _ => 0) = some buf ∧
      buf.length = 3 * 1 :=
  buffer_length_and_finiteness ShapeType.Sphere 1 (fun _ => 0) (by norm_num)
    (fun _ => by norm_num)

/-! ### Claim C2 -/

/-- C2 counterexample: the Mobius branch draws a random value (the width
parameter `v = random(-1, 1)`), so two invocations of
`generateParticles(Mobius, 1)` whose random streams differ produce different
buffers — the claim that no randomness enters the Möbius path is false. -/
theorem mobius_not_reproducible :
    generateParticles ShapeType.Mobius 1 (fun _ => 0) ≠
      generateParticles ShapeType.Mobius 1 (fun _ => (2 : ℝ)⁻¹) := by
  have hd : divD ((0 : ℕ) : ℝ) ((1 : ℕ) : ℝ) = some 0 := by
    rw [divD_of_ne] <;> norm_num
  have e0 : genPoint ShapeType.Mobius 1 (fun _ => (0 : ℝ)) 0 0 =
      (some (7, 0, 0), 1) := by
    unfold genPoint
    rw [hd]
    dsimp only
    rw [if_neg (by decide : ¬(ShapeType.Mobius = ShapeType.Sphere)),
        if_neg (by decide : ¬(ShapeType.Mobius = ShapeType.Sierpinski)),
        if_pos rfl]
    norm_num [random, Real.cos_zero, Real.sin_zero]
  have e1 : genPoint ShapeType.Mobius 1 (fun _ => (2 : ℝ)⁻¹) 0 0 =
      (some (8, 0, 0), 1) := by
    unfold genPoint
    rw [hd]
    dsimp only
    rw [if_neg (by decide : ¬(ShapeType.Mobius = ShapeType.Sphere)),
        if_neg (by decide : ¬(ShapeType.Mobius = ShapeType.Sierpinski)),
        if_pos rfl]
    norm_num [random, Real.cos_zero, Real.sin_zero]
  have e0lit : genPoint "Mobius Strip" 1 (fun _ => (0 : ℝ)) 0 0 =
      (some (7, 0, 0), 1) := e0
  have e1lit : genPoint "Mobius Strip" 1 (fun _ => (2 : ℝ)⁻¹) 0 0 =
      (some (8, 0, 0), 1) := e1
  have hbuf0 : generateParticles ShapeType.Mobius 1 (fun _ => (0 : ℝ)) =
      some [7, 0, 0] := by
    unfold generateParticles
    rw [show List.range 1 = [0] from rfl]
    simp [genAux, e0lit]
  have hbuf1 : generateParticles ShapeType.Mobius 1 (fun _ => (2 : ℝ)⁻¹) =
      some [8, 0, 0] := by
    unfold generateParticles
    rw [show List.range 1 = [0] from rfl]
    simp [genAux, e1lit]
  rw [hbuf0, hbuf1]
  intro hcontra
  simp only [Option.some.injEq, List.cons.injEq] at hcontra
  norm_num at hcontra

/-- C2 as amended: among the six families the claim lists, the four that in
fact draw no random values — sphere, Klein bottle, Clifford torus, Lissajous
curve — are bit-for-bit reproducible: the output buffer does not depend on
the random stream.  (Möbius and trefoil, the two others, do draw random
values; see the counterexample.) -/
theorem closed_form_reproducible (shape : String)
    (hshape : shape = ShapeType.Sphere ∨ shape = ShapeType.Klein ∨
      shape = ShapeType.Clifford ∨ shape = ShapeType.Lissajous)
    (count : ℕ) (rng rng' : ℕ → ℝ) :
    generateParticles shape count rng = generateParticles shape count rng' := by
  rcases hshape with h | h | h | h <;> subst h <;> unfold generateParticles
  · rw [genAux_eq_flatTriples _ _ _ (sphereVal count)
        (fun i p => ⟨p, genPoint_sphere_eq count rng i p⟩),
      genAux_eq_flatTriples _ _ _ (sphereVal count)
        (fun i p => ⟨p, genPoint_sphere_eq count rng' i p⟩)]
  · rw [genAux_eq_flatTriples _ _ _ (kleinVal count)
        (fun i p => ⟨p, genPoint_klein_eq count rng i p⟩),
      genAux_eq_flatTriples _ _ _ (kleinVal count)
        (fun i p => ⟨p, genPoint_klein_eq count rng' i p⟩)]
  · rw [genAux_eq_flatTriples _ _ _ (cliffordVal count)
        (fun i p => ⟨p, genPoint_clifford_eq count rng i p⟩),
      genAux_eq_flatTriples _ _ _ (cliffordVal count)
        (fun i p => ⟨p, genPoint_clifford_eq count rng' i p⟩)]
  · rw [genAux_eq_flatTriples _ _ _ (lissajousVal count)
        (fun i p => ⟨p, genPoint_lissajous_eq count rng i p⟩),
      genAux_eq_flatTriples _ _ _ (lissajousVal count)
        (fun i p => ⟨p, genPoint_lissajous_eq count rng' i p⟩)]

/-- Witness for the amended C2: the sphere output at `count = 1` is the same
under two different oracle streams. -/
theorem closed_form_reproducible_witness :
    generateParticles ShapeType.Sphere 1 (fun _ => 0) =
      generateParticles ShapeType.Sphere 1 (fun _ => (1 : ℝ) / 2) :=
  closed_form_reproducible ShapeType.Sphere (Or.inl rfl) 1 (fun _ => 0)
    (fun _ => (1 : ℝ) / 2)

/-! ### Claims C5 and C6 -/

theorem sphereVal_eval (count j : ℕ) (hj : j < count) :
    sphereVal count j = some
      (10 * Real.sin (Real.arccos (1 - 2 * ((j : ℝ) / (count : ℝ)))) *
         Real.cos (Real.pi * (1 + Real.sqrt 5) * (j : ℝ)),
       10 * Real.sin (Real.arccos (1 - 2 * ((j : ℝ) / (count : ℝ)))) *
         Real.sin (Real.pi * (1 + Real.sqrt 5) * (j : ℝ)),
       10 * Real.cos (Real.arccos (1 - 2 * ((j : ℝ) / (count : ℝ))))) := by
  have hb : ((count : ℕ) : ℝ) ≠ 0 := by
    have : count ≠ 0 := by omega
    exact_mod_cast this
  have hcpos : (0 : ℝ) < (count : ℝ) := by
    have : 0 < count := by omega
    exact_mod_cast this
  have ht0 : (0 : ℝ) ≤ (j : ℝ) / (count : ℝ) := by positivity
  have ht1 : (j : ℝ) / (count : ℝ) ≤ 1 := by
    rw [div_le_one hcpos]
    exact_mod_cast Nat.le_of_lt hj
  unfold sphereVal
  rw [divD_of_ne _ _ hb, Option.some_bind',
    acosD_of_mem _ (by linarith) (by linarith)]
  rfl

/-- C5: every point of `generateParticles(Sphere, 12)` lies at Euclidean
distance 10 (within 1e-6 — in fact exactly 10) from the origin. -/
theorem sphere_distance_ten (rng : ℕ → ℝ) (i : ℕ) (hi : i < 12) :
    ∃ buf, generateParticles ShapeType.Sphere 12 rng = some buf ∧
      |Real.sqrt (buf.getD (3 * i) 0 ^ 2 + buf.getD (3 * i + 1) 0 ^ 2 +
          buf.getD (3 * i + 2) 0 ^ 2) - 10| ≤ 1 / 1000000 := by
  have hrw : generateParticles ShapeType.Sphere 12 rng =
      flatTriples (sphereVal 12) (List.range 12) :=
    genAux_eq_flatTriples _ _ _ _
      (fun j p => ⟨p, genPoint_sphere_eq 12 rng j p⟩) _ _
  obtain ⟨buf, hbuf, hlen⟩ := flatTriples_some (sphereVal 12) (List.range 12)
    (fun j hj => ⟨_, sphereVal_eval 12 j (List.mem_range.mp hj)⟩)
  refine ⟨buf, by rw [hrw, hbuf], ?_⟩
  obtain ⟨x, y, z, hval, hx, hy, hz⟩ := flatTriples_getD (sphereVal 12)
    (List.range 12) buf hbuf i (by simpa using hi)
  rw [range_getD 12 i hi, sphereVal_eval 12 i hi] at hval
  simp only [Option.some.injEq, Prod.mk.injEq] at hval
  obtain ⟨hvx, hvy, hvz⟩ := hval
  rw [hx, hy, hz, ← hvx, ← hvy, ← hvz]
  have h1 := Real.sin_sq_add_cos_sq (Real.pi * (1 + Real.sqrt 5) * (i : ℝ))
  have h2 := Real.sin_sq_add_cos_sq
    (Real.arccos (1 - 2 * ((i : ℝ) / ((12 : ℕ) : ℝ))))
  have key : (10 * Real.sin (Real.arccos (1 - 2 * ((i : ℝ) / ((12 : ℕ) : ℝ)))) *
        Real.cos (Real.pi * (1 + Real.sqrt 5) * (i : ℝ))) ^ 2 +
      (10 * Real.sin (Real.arccos (1 - 2 * ((i : ℝ) / ((12 : ℕ) : ℝ)))) *
        Real.sin (Real.pi * (1 + Real.sqrt 5) * (i : ℝ))) ^ 2 +
      (10 * Real.cos (Real.arccos (1 - 2 * ((i : ℝ) / ((12 : ℕ) : ℝ))))) ^ 2 =
        100 := by
    linear_combination (100 * Real.sin
      (Real.arccos (1 - 2 * ((i : ℝ) / ((12 : ℕ) : ℝ)))) ^ 2) * h1 + 100 * h2
  rw [key, show (100 : ℝ) = 10 ^ 2 by norm_num,
    Real.sqrt_sq (by norm_num : (0 : ℝ) ≤ 10)]
  norm_num

/-- Witness for C5 at the constant-zero oracle and point index 0. -/
theorem sphere_distance_ten_witness :
    ∃ buf, generateParticles ShapeType.Sphere 12 (fun _ => 0) = some buf ∧
      |Real.sqrt (buf.getD 0 0 ^ 2 + buf.getD 1 0 ^ 2 + buf.getD 2 0 ^ 2) -
        10| ≤ 1 / 1000000 := by
  have h := sphere_distance_ten (fun _ => 0) 0 (by norm_num)
  simpa using h

theorem cliffordVal_eval (count j : ℕ) (hc : count ≠ 0) :
    cliffordVal count j = some
      ((8 + 3 * Real.cos (((j % 200 : ℕ) : ℝ) / 200 * Real.pi * 2)) *
         Real.cos ((j : ℝ) / (count : ℝ) * Real.pi * 2),
       (8 + 3 * Real.cos (((j % 200 : ℕ) : ℝ) / 200 * Real.pi * 2)) *
         Real.sin ((j : ℝ) / (count : ℝ) * Real.pi * 2),
       3 * Real.sin (((j % 200 : ℕ) : ℝ) / 200 * Real.pi * 2)) := by
  have hb : ((count : ℕ) : ℝ) ≠ 0 := by exact_mod_cast hc
  unfold cliffordVal
  rw [divD_of_ne _ _ hb]
  rfl

/-- C6: every point of `generateParticles(Clifford, 1000)` has distance from
the z-axis within `[R - r, R + r] = [5, 11]`. -/
theorem clifford_z_axis_band (rng : ℕ → ℝ) (i : ℕ) (hi : i < 1000) :
    ∃ buf, generateParticles ShapeType.Clifford 1000 rng = some buf ∧
      5 ≤ Real.sqrt (buf.getD (3 * i) 0 ^ 2 + buf.getD (3 * i + 1) 0 ^ 2) ∧
      Real.sqrt (buf.getD (3 * i) 0 ^ 2 + buf.getD (3 * i + 1) 0 ^ 2) ≤ 11 := by
  have hc : (1000 : ℕ) ≠ 0 := by norm_num
  have hrw : generateParticles ShapeType.Clifford 1000 rng =
      flatTriples (cliffordVal 1000) (List.range 1000) :=
    genAux_eq_flatTriples _ _ _ _
      (fun j p => ⟨p, genPoint_clifford_eq 1000 rng j p⟩) _ _
  obtain ⟨buf, hbuf, hlen⟩ := flatTriples_some (cliffordVal 1000)
    (List.range 1000) (fun j hj => ⟨_, cliffordVal_eval 1000 j hc⟩)
  refine ⟨buf, by rw [hrw, hbuf], ?_⟩
  obtain ⟨x, y, z, hval, hx, hy, hz⟩ := flatTriples_getD (cliffordVal 1000)
    (List.range 1000) buf hbuf i (by simpa using hi)
  rw [range_getD 1000 i hi, cliffordVal_eval 1000 i hc] at hval
  simp only [Option.some.injEq, Prod.mk.injEq] at hval
  obtain ⟨hvx, hvy, hvz⟩ := hval
  rw [hx, hy, ← hvx, ← hvy]
  have hcos1 := Real.neg_one_le_cos (((i % 200 : ℕ) : ℝ) / 200 * Real.pi * 2)
  have hcos2 := Real.cos_le_one (((i % 200 : ℕ) : ℝ) / 200 * Real.pi * 2)
  have hband : (5 : ℝ) ≤ 8 + 3 * Real.cos (((i % 200 : ℕ) : ℝ) / 200 *
      Real.pi * 2) ∧ 8 + 3 * Real.cos (((i % 200 : ℕ) : ℝ) / 200 * Real.pi *
      2) ≤ 11 := ⟨by linarith, by linarith⟩
  have hpyth := Real.sin_sq_add_cos_sq ((i : ℝ) / ((1000 : ℕ) : ℝ) * Real.pi * 2)
  have key : ((8 + 3 * Real.cos (((i % 200 : ℕ) : ℝ) / 200 * Real.pi * 2)) *
        Real.cos ((i : ℝ) / ((1000 : ℕ) : ℝ) * Real.pi * 2)) ^ 2 +
      ((8 + 3 * Real.cos (((i % 200 : ℕ) : ℝ) / 200 * Real.pi * 2)) *
        Real.sin ((i : ℝ) / ((1000 : ℕ) : ℝ) * Real.pi * 2)) ^ 2 =
      (8 + 3 * Real.cos (((i % 200 : ℕ) : ℝ) / 200 * Real.pi * 2)) ^ 2 := by
    linear_combination ((8 + 3 * Real.cos (((i % 200 : ℕ) : ℝ) / 200 *
      Real.pi * 2)) ^ 2) * hpyth
  rw [key, Real.sqrt_sq (by linarith [hband.1])]
  exact hband

/-- Witness for C6 at the constant-zero oracle and point index 0. -/
theorem clifford_z_axis_band_witness :
    ∃ buf, generateParticles ShapeType.Clifford 1000 (fun _ => 0) = some buf ∧
      5 ≤ Real.sqrt (buf.getD 0 0 ^ 2 + buf.getD 1 0 ^ 2) ∧
      Real.sqrt (buf.getD 0 0 ^ 2 + buf.getD 1 0 ^ 2) ≤ 11 := by
  have h := clifford_z_axis_band (fun _ => 0) 0 (by norm_num)
  simpa using h

/-! ### Claims C9 and C10: the Lorenz branch -/

theorem lorenzVal_mod100 (count j : ℕ) (hc : count ≠ 0) (hmod : j % 100 = 0) :
    lorenzVal count j = some (0, 0, 0) := by
  have hb : ((count : ℕ) : ℝ) ≠ 0 := by exact_mod_cast hc
  unfold lorenzVal
  rw [divD_of_ne _ _ hb]
  simp [hmod]

theorem lorenzVal_some (count j : ℕ) (hc : count ≠ 0) :
    ∃ q, lorenzVal count j = some q := by
  have hb : ((count : ℕ) : ℝ) ≠ 0 := by exact_mod_cast hc
  unfold lorenzVal
  rw [divD_of_ne _ _ hb]
  by_cases h : j % 100 = 0 <;> simp [h]

/-- C9: evaluation of the code at the failing input.  The claim says every
Lorenz point is obtained by re-integrating a trajectory from a fixed seed for
an index-derived number of steps; but for any point index that is a multiple
of 100 (index 0 in particular) the branch draws three random start values,
never reads them, and emits `(0, 0, 0)` — no integration at all.  The oracle
position advances by 3 (the dead draws) while the output is the origin. -/
theorem lorenz_point_zero_eval (count : ℕ) (rng : ℕ → ℝ) (p : ℕ)
    (hcount : 0 < count) :
    genPoint ShapeType.Lorenz count rng 0 p = (some (0, 0, 0), p + 3) := by
  have hc : count ≠ 0 := by omega
  rw [genPoint_lorenz_eq count rng 0 p hc,
    lorenzVal_mod100 count 0 hc (by norm_num)]
  norm_num

/-- Witness for C9 at `count = 1`, the constant-zero oracle, oracle
position 0. -/
theorem lorenz_point_zero_eval_witness :
    genPoint ShapeType.Lorenz 1 (fun _ => 0) 0 0 = (some (0, 0, 0), 0 + 3) :=
  lorenz_point_zero_eval 1 (fun _ => 0) 0 (by norm_num)

/-- C10: for every `count > 0`, `generateParticles(Lorenz, count)` places
every point whose index is a multiple of 100 (index 0 included) exactly at
the origin: the drawn start values are never copied into the output
coordinates, which keep their initial value 0. -/
theorem lorenz_mod100_origin (count : ℕ) (rng : ℕ → ℝ) (hcount : 0 < count) :
    ∃ buf, generateParticles ShapeType.Lorenz count rng = some buf ∧
      ∀ i, i < count → i % 100 = 0 →
        buf.getD (3 * i) 0 = 0 ∧ buf.getD (3 * i + 1) 0 = 0 ∧
        buf.getD (3 * i + 2) 0 = 0 := by
  have hc : count ≠ 0 := by omega
  have hrw : generateParticles ShapeType.Lorenz count rng =
      flatTriples (lorenzVal count) (List.range count) :=
    genAux_eq_flatTriples _ _ _ _
      (fun j p => ⟨_, genPoint_lorenz_eq count rng j p hc⟩) _ _
  obtain ⟨buf, hbuf, hlen⟩ := flatTriples_some (lorenzVal count)
    (List.range count) (fun j hj => lorenzVal_some count j hc)
  refine ⟨buf, by rw [hrw, hbuf], ?_⟩
  intro i hi hmod
  obtain ⟨x, y, z, hval, hx, hy, hz⟩ := flatTriples_getD (lorenzVal count)
    (List.range count) buf hbuf i (by simpa using hi)
  rw [range_getD count i hi, lorenzVal_mod100 count i hc hmod] at hval
  simp only [Option.some.injEq, Prod.mk.injEq] at hval
  obtain ⟨hvx, hvy, hvz⟩ := hval
  refine ⟨?_, ?_, ?_⟩
  · rw [hx]; exact hvx.symm
  · rw [hy]; exact hvy.symm
  · rw [hz]; exact hvz.symm

/-- Witness for C10 at `count = 1` and the constant-zero oracle. -/
theorem lorenz_mod100_origin_witness :
    ∃ buf, generateParticles ShapeType.Lorenz 1 (fun _ => 0) = some buf ∧
      ∀ i, i < 1 → i % 100 = 0 →
        buf.getD (3 * i) 0 = 0 ∧ buf.getD (3 * i + 1) 0 = 0 ∧
        buf.getD (3 * i + 2) 0 = 0 :=
  lorenz_mod100_origin 1 (fun _ => 0) (by norm_num)

/-! ### Claim C4: the default case -/

/-- C4: an unknown shape identifier does not fail: the generator falls back
to the uniform random cube fill and returns a buffer of the requested length
`3 * count` whose coordinates all lie in `[-10, 10]`. -/
theorem unknown_shape_default_cube (shape : String) (count : ℕ) (rng : ℕ → ℝ)
    (hshape : shape ∉ knownShapes) (hcount : 0 < count)
    (hr : ∀ n, 0 ≤ rng n ∧ rng n < 1) :
    ∃ buf, generateParticles shape count rng = some buf ∧
      buf.length = 3 * count ∧ ∀ x ∈ buf, -10 ≤ x ∧ x ≤ 10 := by
  have hc : count ≠ 0 := by omega
  have main : ∀ (l : List ℕ) (p : ℕ),
      ∃ buf, genAux shape count rng l p = some buf ∧
        buf.length = 3 * l.length ∧ ∀ x ∈ buf, -10 ≤ x ∧ x ≤ 10 := by
    intro l
    induction l with
    | nil => intro p; exact ⟨[], rfl, rfl, by simp⟩
    | cons i rest ih =>
      intro p
      obtain ⟨tail, htail, hlen, hmem⟩ := ih (p + 3)
      have hgen := genPoint_default_eq shape count rng i p hc hshape
      have hbx := random_mem rng p (-10) 10 (hr p) (by norm_num)
      have hby := random_mem rng (p + 1) (-10) 10 (hr (p + 1)) (by norm_num)
      have hbz := random_mem rng (p + 2) (-10) 10 (hr (p + 2)) (by norm_num)
      refine ⟨random rng p (-10) 10 :: random rng (p + 1) (-10) 10 ::
        random rng (p + 2) (-10) 10 :: tail, ?_, ?_, ?_⟩
      · simp [genAux, hgen, htail]
      · simp only [List.length_cons, hlen]
        ring
      · intro x hx
        simp only [List.mem_cons] at hx
        rcases hx with h | h | h | h
        · exact h ▸ ⟨hbx.1, le_of_lt hbx.2⟩
        · exact h ▸ ⟨hby.1, le_of_lt hby.2⟩
        · exact h ▸ ⟨hbz.1, le_of_lt hbz.2⟩
        · exact hmem x h
  obtain ⟨buf, h1, h2, h3⟩ := main (List.range count) 0
  exact ⟨buf, h1, by simpa using h2, h3⟩

/-- Witness for C4: the empty string is not a known shape; `count = 1`,
constant-zero oracle. -/
theorem unknown_shape_default_cube_witness :
    ∃ buf, generateParticles "" 1 (fun _ => 0) = some buf ∧
      buf.length = 3 * 1 ∧ ∀ x ∈ buf, -10 ≤ x ∧ x ≤ 10 :=
  unknown_shape_default_cube "" 1 (fun _ => 0) (by decide) (by norm_num)
    (fun _ => by norm_num)

/-! ### The morph driver: basic lemmas -/

theorem morphEps_eq : morphEps = 1 / 1000 := by norm_num [morphEps]

theorem lerpFactor_eq : lerpFactor = 1 / 20 := by norm_num [lerpFactor]

theorem morphStep_near (c t : ℚ) (h : ¬ morphEps < |t - c|) :
    morphStep c t = c := by
  unfold morphStep
  rw [if_neg h]

theorem morphStep_far (c t : ℚ) (h : morphEps < |t - c|) :
    morphStep c t = c + (t - c) * lerpFactor := by
  unfold morphStep
  rw [if_pos h]

theorem morphStep_dist (c t : ℚ) (h : morphEps < |t - c|) :
    |t - morphStep c t| = 19 / 20 * |t - c| := by
  rw [morphStep_far c t h]
  have he : t - (c + (t - c) * lerpFactor) = 19 / 20 * (t - c) := by
    rw [lerpFactor_eq]
    ring
  rw [he, abs_mul, abs_of_pos (show (0 : ℚ) < 19 / 20 by norm_num)]

theorem morphStep_dist_le (c t : ℚ) : |t - morphStep c t| ≤ |t - c| := by
  by_cases h : morphEps < |t - c|
  · rw [morphStep_dist c t h]
    nlinarith [abs_nonneg (t - c)]
  · rw [morphStep_near c t h]

theorem morphStep_dist_decay (c t : ℚ) :
    |t - morphStep c t| ≤ max morphEps (19 / 20 * |t - c|) := by
  by_cases h : morphEps < |t - c|
  · rw [morphStep_dist c t h]
    exact le_max_right _ _
  · rw [morphStep_near c t h]
    exact le_trans (not_lt.mp h) (le_max_left _ _)

theorem zipWith_getD (f : ℚ → ℚ → ℚ) :
    ∀ (as bs : List ℚ) (i : ℕ), i < as.length → i < bs.length →
      (List.zipWith f as bs).getD i 0 = f (as.getD i 0) (bs.getD i 0) := by
  intro as
  induction as with
  | nil => intro bs i h _; exact absurd h (by simp)
  | cons a as ih =>
    intro bs i h1 h2
    cases bs with
    | nil => exact absurd h2 (by simp)
    | cons b bs =>
      cases i with
      | zero => simp
      | succ i =>
        simp only [List.zipWith_cons_cons, List.getD_cons_succ]
        exact ih bs i (by simpa using h1) (by simpa using h2)

theorem morphTick_getD (cur tgt : List ℚ) (i : ℕ) (h1 : i < cur.length)
    (h2 : i < tgt.length) :
    (morphTick cur tgt).getD i 0 = morphStep (cur.getD i 0) (tgt.getD i 0) :=
  zipWith_getD morphStep cur tgt i h1 h2

theorem totalDist_nonneg : ∀ cur tgt : List ℚ, 0 ≤ totalDist cur tgt := by
  intro cur
  induction cur with
  | nil => intro tgt; simp [totalDist]
  | cons c cur ih =>
    intro tgt
    cases tgt with
    | nil => simp [totalDist]
    | cons t tgt =>
      have h1 := ih tgt
      have h2 : (0 : ℚ) ≤ |t - c| := abs_nonneg _
      simp only [totalDist, List.zipWith_cons_cons, List.sum_cons]
      simp only [totalDist] at h1
      linarith

theorem getD_abs_le_totalDist :
    ∀ cur tgt : List ℚ, cur.length = tgt.length → ∀ i, i < tgt.length →
      |tgt.getD i 0 - cur.getD i 0| ≤ totalDist cur tgt := by
  intro cur
  induction cur with
  | nil =>
    intro tgt h i hi
    rw [← h] at hi
    exact absurd hi (by simp)
  | cons c cur ih =>
    intro tgt h i hi
    cases tgt with
    | nil => exact absurd hi (by simp)
    | cons t tgt =>
      have hsum : totalDist (c :: cur) (t :: tgt) =
          |t - c| + totalDist cur tgt := by
        simp [totalDist]
      cases i with
      | zero =>
        simp only [List.getD_cons_zero, hsum]
        linarith [totalDist_nonneg cur tgt]
      | succ i =>
        simp only [List.getD_cons_succ, hsum]
        have := ih tgt (by simpa using h) i (by simpa using hi)
        linarith [abs_nonneg (t - c)]

theorem totalDist_tick_le : ∀ cur tgt : List ℚ,
    totalDist (morphTick cur tgt) tgt ≤ totalDist cur tgt := by
  intro cur
  induction cur with
  | nil => intro tgt; simp [morphTick, totalDist]
  | cons c cur ih =>
    intro tgt
    cases tgt with
    | nil => simp [morphTick, totalDist]
    | cons t tgt =>
      have h1 := morphStep_dist_le c t
      have h2 := ih tgt
      simp only [morphTick, totalDist, List.zipWith_cons_cons,
        List.sum_cons] at h2 ⊢
      linarith

theorem totalDist_tick_lt : ∀ cur tgt : List ℚ,
    (∃ i, i < cur.length ∧ i < tgt.length ∧
      morphEps < |tgt.getD i 0 - cur.getD i 0|) →
    totalDist (morphTick cur tgt) tgt < totalDist cur tgt := by
  intro cur
  induction cur with
  | nil =>
    rintro tgt ⟨i, hi, _, _⟩
    exact absurd hi (by simp)
  | cons c cur ih =>
    rintro tgt ⟨i, hi1, hi2, hfar⟩
    cases tgt with
    | nil => exact absurd hi2 (by simp)
    | cons t tgt =>
      simp only [morphTick, totalDist, List.zipWith_cons_cons, List.sum_cons]
      cases i with
      | zero =>
        simp only [List.getD_cons_zero] at hfar
        have hpos : 0 < |t - c| := lt_trans (by norm_num [morphEps]) hfar
        have hstrict : |t - morphStep c t| < |t - c| := by
          rw [morphStep_dist c t hfar]
          nlinarith
        have h2 := totalDist_tick_le cur tgt
        simp only [morphTick, totalDist] at h2
        linarith
      | succ i =>
        simp only [List.getD_cons_succ] at hfar
        have h1 := morphStep_dist_le c t
        have h2 := ih tgt ⟨i, by simpa using hi1, by simpa using hi2, hfar⟩
        simp only [morphTick, totalDist] at h2
        linarith

theorem morphIter_length (tgt cur : List ℚ) (h : cur.length = tgt.length) :
    ∀ n, (morphIter tgt cur n).length = tgt.length := by
  intro n
  induction n with
  | zero => simpa [morphIter] using h
  | succ n ih =>
    simp only [morphIter, morphTick, List.length_zipWith, ih, min_self]

theorem morphIter_getD_succ (tgt cur : List ℚ) (h : cur.length = tgt.length)
    (i : ℕ) (hi : i < tgt.length) (n : ℕ) :
    (morphIter tgt cur (n + 1)).getD i 0 =
      morphStep ((morphIter tgt cur n).getD i 0) (tgt.getD i 0) := by
  have hlen : i < (morphIter tgt cur n).length := by
    rw [morphIter_length tgt cur h n]
    exact hi
  exact morphTick_getD _ _ i hlen hi

theorem morphIter_comp_decay (tgt cur : List ℚ) (h : cur.length = tgt.length)
    (i : ℕ) (hi : i < tgt.length) :
    ∀ n, |tgt.getD i 0 - (morphIter tgt cur n).getD i 0| ≤
      max morphEps ((19 / 20) ^ n * |tgt.getD i 0 - cur.getD i 0|) := by
  intro n
  induction n with
  | zero => simp [morphIter]
  | succ n ih =>
    rw [morphIter_getD_succ tgt cur h i hi n]
    refine le_trans (morphStep_dist_decay _ _) ?_
    have hmul : (19 / 20 : ℚ) * |tgt.getD i 0 - (morphIter tgt cur n).getD i 0| ≤
        (19 / 20) * max morphEps ((19 / 20) ^ n *
          |tgt.getD i 0 - cur.getD i 0|) :=
      mul_le_mul_of_nonneg_left ih (by norm_num)
    have hsplit : (19 / 20 : ℚ) * max morphEps ((19 / 20) ^ n *
        |tgt.getD i 0 - cur.getD i 0|) =
        max ((19 / 20) * morphEps) ((19 / 20) ^ (n + 1) *
          |tgt.getD i 0 - cur.getD i 0|) := by
      rw [mul_max_of_nonneg _ _ (by norm_num : (0 : ℚ) ≤ 19 / 20)]
      rw [pow_succ]
      ring_nf
    refine max_le (le_max_left _ _) ?_
    refine le_trans hmul ?_
    rw [hsplit]
    refine max_le ?_ (le_max_right _ _)
    refine le_trans ?_ (le_max_left _ _)
    norm_num [morphEps]

/-! ### Claim C3 -/

/-- C3 counterexample: with `current = [0]` and `target = [1/950]`, one tick
moves the component to `1/19000`, after which its distance to the target is
exactly `0.001` — never strictly below the epsilon threshold, so the claim
that every component eventually differs from its target by less than 0.001
is false at this input. -/
theorem morph_not_strictly_below_eps :
    ¬ ∃ N : ℕ, ∀ n, N ≤ n → ∀ i, i < ([(1 : ℚ) / 950] : List ℚ).length →
      |([(1 : ℚ) / 950] : List ℚ).getD i 0 -
        (morphIter [(1 : ℚ) / 950] [(0 : ℚ)] n).getD i 0| < morphEps := by
  rintro ⟨N, hN⟩
  have habs1 : |(1 : ℚ) / 950 - 0| = 1 / 950 := by
    rw [sub_zero, abs_of_pos] <;> norm_num
  have habs2 : |(1 : ℚ) / 950 - 1 / 19000| = 1 / 1000 := by
    rw [show (1 : ℚ) / 950 - 1 / 19000 = 1 / 1000 by norm_num,
      abs_of_pos] <;> norm_num
  have h1 : morphTick [(0 : ℚ)] [(1 : ℚ) / 950] = [(1 : ℚ) / 19000] := by
    simp only [morphTick, List.zipWith_cons_cons, List.zipWith_nil_right]
    rw [morphStep_far _ _ (by rw [habs1, morphEps_eq]; norm_num)]
    rw [lerpFactor_eq]
    norm_num
  have hfix : morphTick [(1 : ℚ) / 19000] [(1 : ℚ) / 950] =
      [(1 : ℚ) / 19000] := by
    simp only [morphTick, List.zipWith_cons_cons, List.zipWith_nil_right]
    rw [morphStep_near _ _ (by rw [habs2, morphEps_eq]; norm_num)]
  have hiter : ∀ n, 1 ≤ n →
      morphIter [(1 : ℚ) / 950] [(0 : ℚ)] n = [(1 : ℚ) / 19000] := by
    intro n
    induction n with
    | zero => omega
    | succ m ih =>
      intro _
      by_cases hm : 1 ≤ m
      · simp only [morphIter]
        rw [ih hm, hfix]
      · have hm0 : m = 0 := by omega
        subst hm0
        simp only [morphIter]
        exact h1
  have happ := hN (N + 1) (by omega) 0 (by norm_num)
  rw [hiter (N + 1) (by omega)] at happ
  simp only [List.getD_cons_zero] at happ
  rw [habs2, morphEps_eq] at happ
  norm_num at happ

/-- C3 as amended: a tick taken while some component is farther than the
epsilon 0.001 from its target strictly decreases the summed absolute
distance, and after sufficiently many ticks every component is within (that
is, at most) 0.001 of its target.  (Exact equality with the threshold can
persist forever, so `< 0.001` is weakened to `≤ 0.001`; see the
counterexample.) -/
theorem morph_monotone_and_convergent (cur tgt : List ℚ)
    (h : cur.length = tgt.length) :
    (∀ n, (∃ i, i < tgt.length ∧
        morphEps < |tgt.getD i 0 - (morphIter tgt cur n).getD i 0|) →
      totalDist (morphIter tgt cur (n + 1)) tgt <
        totalDist (morphIter tgt cur n) tgt) ∧
    (∃ N, ∀ n, N ≤ n → ∀ i, i < tgt.length →
      |tgt.getD i 0 - (morphIter tgt cur n).getD i 0| ≤ morphEps) := by
  constructor
  · rintro n ⟨i, hi, hfar⟩
    have hlen := morphIter_length tgt cur h n
    show totalDist (morphTick (morphIter tgt cur n) tgt) tgt <
      totalDist (morphIter tgt cur n) tgt
    exact totalDist_tick_lt _ _ ⟨i, by rw [hlen]; exact hi, hi, hfar⟩
  · have hD0 : 0 ≤ totalDist cur tgt := totalDist_nonneg cur tgt
    obtain ⟨N, hN⟩ := exists_pow_lt_of_lt_one
      (show (0 : ℚ) < morphEps / (totalDist cur tgt + 1) by
        rw [morphEps_eq]; positivity)
      (show (19 / 20 : ℚ) < 1 by norm_num)
    refine ⟨N, fun n hn i hi => ?_⟩
    have hcomp := morphIter_comp_decay tgt cur h i hi n
    have hd0 := getD_abs_le_totalDist cur tgt h i hi
    have hpow : (19 / 20 : ℚ) ^ n ≤ (19 / 20) ^ N :=
      pow_le_pow_of_le_one (by norm_num) (by norm_num) hn
    have hkey : (19 / 20 : ℚ) ^ n * |tgt.getD i 0 - cur.getD i 0| ≤
        morphEps := by
      have hpn : (0 : ℚ) ≤ (19 / 20 : ℚ) ^ N := by positivity
      have ha : (19 / 20 : ℚ) ^ n * |tgt.getD i 0 - cur.getD i 0| ≤
          (19 / 20) ^ N * totalDist cur tgt :=
        mul_le_mul hpow hd0 (abs_nonneg _) hpn
      have hb : (19 / 20 : ℚ) ^ N * totalDist cur tgt ≤
          (19 / 20) ^ N * (totalDist cur tgt + 1) := by nlinarith
      have hcN : (19 / 20 : ℚ) ^ N * (totalDist cur tgt + 1) <
          (morphEps / (totalDist cur tgt + 1)) * (totalDist cur tgt + 1) :=
        mul_lt_mul_of_pos_right hN (by linarith)
      have hdN : (morphEps / (totalDist cur tgt + 1)) *
          (totalDist cur tgt + 1) = morphEps := by
        field_simp
      linarith
    exact le_trans hcomp (max_le le_rfl hkey)

/-- Witness for the amended C3 at `current = [0]`, `target = [1]`. -/
theorem morph_monotone_and_convergent_witness :
    (∀ n, (∃ i, i < ([(1 : ℚ)] : List ℚ).length ∧
        morphEps < |([(1 : ℚ)] : List ℚ).getD i 0 -
          (morphIter [(1 : ℚ)] [(0 : ℚ)] n).getD i 0|) →
      totalDist (morphIter [(1 : ℚ)] [(0 : ℚ)] (n + 1)) [(1 : ℚ)] <
        totalDist (morphIter [(1 : ℚ)] [(0 : ℚ)] n) [(1 : ℚ)]) ∧
    (∃ N, ∀ n, N ≤ n → ∀ i, i < ([(1 : ℚ)] : List ℚ).length →
      |([(1 : ℚ)] : List ℚ).getD i 0 -
        (morphIter [(1 : ℚ)] [(0 : ℚ)] n).getD i 0| ≤ morphEps) :=
  morph_monotone_and_convergent [(0 : ℚ)] [(1 : ℚ)] rfl

/-! ### Claim C7 -/

/-- C7: a single tick changes only components whose absolute difference to
the target exceeds 0.001 (those move by `diff * 0.05` and land strictly short
of the target, never snapped onto it); a component within 0.001 is left
exactly unchanged.  The target buffer is only read by the tick —
`morphTick`, like the `useFrame` loop, writes the position buffer alone. -/
theorem tick_updates_only_far_components (cur tgt : List ℚ) (i : ℕ)
    (h1 : i < cur.length) (h2 : i < tgt.length) :
    (|tgt.getD i 0 - cur.getD i 0| ≤ morphEps →
      (morphTick cur tgt).getD i 0 = cur.getD i 0) ∧
    (morphEps < |tgt.getD i 0 - cur.getD i 0| →
      (morphTick cur tgt).getD i 0 =
        cur.getD i 0 + (tgt.getD i 0 - cur.getD i 0) * lerpFactor ∧
      (morphTick cur tgt).getD i 0 ≠ tgt.getD i 0) := by
  rw [morphTick_getD cur tgt i h1 h2]
  constructor
  · intro hnear
    exact morphStep_near _ _ (not_lt.mpr hnear)
  · intro hfar
    refine ⟨morphStep_far _ _ hfar, ?_⟩
    intro hcontra
    have hd := morphStep_dist (cur.getD i 0) (tgt.getD i 0) hfar
    rw [hcontra, sub_self, abs_zero] at hd
    have hpos : 0 < |tgt.getD i 0 - cur.getD i 0| :=
      lt_trans (by norm_num [morphEps]) hfar
    nlinarith

/-- Witness for C7 at `current = [0]`, `target = [1]`, component 0. -/
theorem tick_updates_only_far_components_witness :
    (|([(1 : ℚ)] : List ℚ).getD 0 0 - ([(0 : ℚ)] : List ℚ).getD 0 0| ≤
        morphEps →
      (morphTick [(0 : ℚ)] [(1 : ℚ)]).getD 0 0 =
        ([(0 : ℚ)] : List ℚ).getD 0 0) ∧
    (morphEps < |([(1 : ℚ)] : List ℚ).getD 0 0 -
        ([(0 : ℚ)] : List ℚ).getD 0 0| →
      (morphTick [(0 : ℚ)] [(1 : ℚ)]).getD 0 0 =
        ([(0 : ℚ)] : List ℚ).getD 0 0 +
          (([(1 : ℚ)] : List ℚ).getD 0 0 -
            ([(0 : ℚ)] : List ℚ).getD 0 0) * lerpFactor ∧
      (morphTick [(0 : ℚ)] [(1 : ℚ)]).getD 0 0 ≠
        ([(1 : ℚ)] : List ℚ).getD 0 0) :=
  tick_updates_only_far_components [(0 : ℚ)] [(1 : ℚ)] 0 (by norm_num)
    (by norm_num)

/-! ### Claim C8 -/

/-- C8 counterexample, taken mid-morph: the state has current `[0, 0]` and
old target `[0, 1]`, so component 1 is still farther than the epsilon 0.001
from its target — the morph has not converged (first conjunct) when the
target is replaced by `[100, 1]`.  On the next tick component 0 moves by 5,
while 0.05 times its previous distance to the old target is 0 — the claimed
bound is false at this input (second conjunct). -/
theorem retarget_old_target_bound_false :
    morphEps < |(MorphState.mk [(0 : ℚ), 0] [(0 : ℚ), 1]).target.getD 1 0 -
        (MorphState.mk [(0 : ℚ), 0] [(0 : ℚ), 1]).current.getD 1 0| ∧
    ¬ |(tickState (retarget (MorphState.mk [(0 : ℚ), 0] [(0 : ℚ), 1])
            [(100 : ℚ), 1])).current.getD 0 0 -
          (MorphState.mk [(0 : ℚ), 0] [(0 : ℚ), 1]).current.getD 0 0| ≤
      lerpFactor *
        |(MorphState.mk [(0 : ℚ), 0] [(0 : ℚ), 1]).target.getD 0 0 -
          (MorphState.mk [(0 : ℚ), 0] [(0 : ℚ), 1]).current.getD 0 0| := by
  constructor
  · show morphEps < |([(0 : ℚ), 1] : List ℚ).getD 1 0 -
        ([(0 : ℚ), 0] : List ℚ).getD 1 0|
    simp only [List.getD_cons_succ, List.getD_cons_zero]
    rw [sub_zero, abs_one, morphEps_eq]
    norm_num
  · intro h
    have habs : |(100 : ℚ) - 0| = 100 := by
      rw [sub_zero, abs_of_pos] <;> norm_num
    have habs1 : |(1 : ℚ) - 0| = 1 := by
      rw [sub_zero, abs_one]
    have hcur : (tickState (retarget (MorphState.mk [(0 : ℚ), 0]
        [(0 : ℚ), 1]) [(100 : ℚ), 1])).current = [(5 : ℚ), 1 / 20] := by
      show morphTick [(0 : ℚ), 0] [(100 : ℚ), 1] = [(5 : ℚ), 1 / 20]
      simp only [morphTick, List.zipWith_cons_cons, List.zipWith_nil_right]
      rw [morphStep_far _ _ (by rw [habs, morphEps_eq]; norm_num),
        morphStep_far _ _ (by rw [habs1, morphEps_eq]; norm_num),
        lerpFactor_eq]
      norm_num
    rw [hcur] at h
    simp only [List.getD_cons_zero] at h
    rw [show |(5 : ℚ) - 0| = 5 by rw [sub_zero, abs_of_pos] <;> norm_num,
      show |(0 : ℚ) - 0| = 0 by simp, lerpFactor_eq] at h
    norm_num at h

/-- C8 as amended: replacing the target mid-morph leaves the current buffer
untouched, and the next tick changes each component by at most 0.05 times
that component's distance to the NEW target (the factual bound; the claimed
bound against the old target fails, see the counterexample). -/
theorem retarget_continuous_bound (s : MorphState) (newTarget : List ℚ)
    (i : ℕ) (h1 : i < s.current.length) (h2 : i < newTarget.length) :
    (retarget s newTarget).current = s.current ∧
    |(tickState (retarget s newTarget)).current.getD i 0 -
        s.current.getD i 0| ≤
      lerpFactor * |newTarget.getD i 0 - s.current.getD i 0| := by
  refine ⟨rfl, ?_⟩
  show |(morphTick s.current newTarget).getD i 0 - s.current.getD i 0| ≤ _
  rw [morphTick_getD s.current newTarget i h1 h2]
  by_cases h : morphEps < |newTarget.getD i 0 - s.current.getD i 0|
  · rw [morphStep_far _ _ h]
    rw [show s.current.getD i 0 + (newTarget.getD i 0 - s.current.getD i 0) *
        lerpFactor - s.current.getD i 0 =
        lerpFactor * (newTarget.getD i 0 - s.current.getD i 0) by ring]
    rw [abs_mul, abs_of_pos (show (0 : ℚ) < lerpFactor by
      rw [lerpFactor_eq]; norm_num)]
  · rw [morphStep_near _ _ h, sub_self, abs_zero]
    have := abs_nonneg (newTarget.getD i 0 - s.current.getD i 0)
    rw [lerpFactor_eq]
    nlinarith

/-- Witness for the amended C8 at current `[0]`, new target `[100]`. -/
theorem retarget_continuous_bound_witness :
    (retarget ⟨[(0 : ℚ)], [(0 : ℚ)]⟩ [(100 : ℚ)]).current =
      (MorphState.mk [(0 : ℚ)] [(0 : ℚ)]).current ∧
    |(tickState (retarget ⟨[(0 : ℚ)], [(0 : ℚ)]⟩ [(100 : ℚ)])).current.getD
        0 0 - (MorphState.mk [(0 : ℚ)] [(0 : ℚ)]).current.getD 0 0| ≤
      lerpFactor * |([(100 : ℚ)] : List ℚ).getD 0 0 -
        (MorphState.mk [(0 : ℚ)] [(0 : ℚ)]).current.getD 0 0| :=
  retarget_continuous_bound ⟨[(0 : ℚ)], [(0 : ℚ)]⟩ [(100 : ℚ)] 0
    (by norm_num) (by norm_num)

end MathCosmos
